import Mathlib

/-!
Shallow embedding of gitstat (src/gitstat/gitstat.py, the current revision)
for checking the natural-language specification against the code.

The git probes (`get_repo_url`, `get_local`, `get_remote`, `get_base`,
`update_index`, `check_unstaged_changes`, `check_uncommitted_changes`,
`check_untracked_files`, `check_unpushed_commits`) each run one external git
command; we model one repository's observable probe outcomes as a `RepoState`
record, one field per probe.  The configparser-backed tracking store is an
association list from path to a `{url, ignore}` record (`Config`).
Python's exceptional control flow is made explicit: `-1` returns become
dedicated `err`/`fail` constructors and the `KeyError` that
`config[path]['url']` raises for an untracked path becomes a dedicated
`exn` outcome.
-/

namespace Gitstat

/-- Result of `get_repo_url` (git config --get remote.origin.url):
`err` is the `-1` returned on a non-zero exit code, `ok url` is the stripped
stdout on success (which may be the empty string). -/
inductive UrlResult where
  | err : UrlResult
  | ok  : String → UrlResult
deriving DecidableEq

/-- Result of `get_remote` (git rev-parse @\x7bu\x7d): `err` is the `-1` on a hard
failure, `noUpstream` is the branch-without-upstream case recognized from
stderr, `ok rev` is the upstream revision. -/
inductive RemoteResult where
  | err        : RemoteResult
  | noUpstream : RemoteResult
  | ok         : String → RemoteResult
deriving DecidableEq

/-- The probe outcomes of one repository: one field per git invocation made
by `checkrepo`.  `localRev`/`base` are `none` when the corresponding
`rev-parse @` / `merge-base` call fails (the functions return `-1`);
`updateIndexOk` is whether `git update-index` exits zero; the four booleans
are the results of the working-tree/index/untracked/unpushed checks. -/
structure RepoState where
  originUrl     : UrlResult
  localRev      : Option String
  remote        : RemoteResult
  base          : Option String
  updateIndexOk : Bool
  unstaged      : Bool
  uncommitted   : Bool
  untracked     : Bool
  unpushedDiff  : Bool
deriving DecidableEq

/-- One section of the gitstat config file: the recorded origin URL and the
raw `ignore` flag string (configparser stores `"true"`/`"false"`; the
DEFAULT record supplies `"false"` when a section has no explicit key). -/
structure StoreRecord where
  url    : String
  ignore : String
deriving DecidableEq

/-- The tracking store: configparser sections, path → record. -/
structure Config where
  sections : List (String × StoreRecord)
deriving DecidableEq

/-- Section lookup, `config[path]`; `none` models the `KeyError` case. -/
def Config.lookup (c : Config) (p : String) : Option StoreRecord :=
  (c.sections.find? (fun s => s.1 == p)).map Prod.snd

/-- `path in config.sections()`. -/
def Config.hasSection (c : Config) (p : String) : Bool :=
  (c.lookup p).isSome

/-- `config.add_section(path); config[path]['url'] = url` (as done by
`track`; a freshly added section carries the DEFAULT ignore value). -/
def Config.addSection (c : Config) (p : String) (url : String) : Config :=
  ⟨c.sections ++ [(p, ⟨url, "false"⟩)]⟩

/-- `config[path]['ignore'] = v`. -/
def Config.setIgnore (c : Config) (p : String) (v : String) : Config :=
  ⟨c.sections.map (fun s => if s.1 == p then (s.1, ⟨s.2.url, v⟩) else s)⟩

/-- Result of `checkrepo`: `exn` models the `KeyError` escaping from
`config[path]['url']`, `fail` the `-1` return, `noStatus` the `None` return,
and `status` the `{'path': ..., 'changes': [...]}` dictionary. -/
inductive CheckResult where
  | exn      : CheckResult
  | fail     : CheckResult
  | noStatus : CheckResult
  | status   : String → List String → CheckResult
deriving DecidableEq

/-- The origin-URL check at the top of `checkrepo`.

Python: `origin_url = get_repo_url(path)` is either `-1` (an int, which is
truthy) or a string.  `if not origin_url:` therefore catches only the empty
string, appending `origin-url-error`; otherwise control reaches
`if origin_url != config[path]['url']:`, where `config[path]` raises
`KeyError` when the store has no record for the path (modelled as
`Except.error ()`), and where `-1 != url` is true for every string, so a
failed probe on a tracked path appends `url-mismatch`. -/
def originChanges (conf : Config) (path : String) (st : RepoState) :
    Except Unit (List String) :=
  match st.originUrl with
  | .err =>
    match conf.lookup path with
    | none => .error ()
    | some _ => .ok ["url-mismatch"]
  | .ok u =>
    if u = "" then .ok ["origin-url-error"]
    else
      match conf.lookup path with
      | none => .error ()
      | some rec' => if u ≠ rec'.url then .ok ["url-mismatch"] else .ok []

/-- The revision-triangle step of `checkrepo`: `get_local`, `get_remote`,
and (when an upstream exists) `get_base`, then the local/remote/base
comparison.  `none` is the `-1` abort; otherwise the contributed changes:
`no-upstream-branch`, nothing, `pull-required`, nothing, or `diverged`. -/
def triangleChanges (st : RepoState) : Option (List String) :=
  match st.localRev with
  | none => none
  | some l =>
    match st.remote with
    | .err => none
    | .noUpstream => some ["no-upstream-branch"]
    | .ok r =>
      match st.base with
      | none => none
      | some b =>
        some (if l = r then []
              else if l = b then ["pull-required"]
              else if r = b then []
              else ["diverged"])

/-- The three unconditional working-tree checks of `checkrepo`
(`check_unstaged_changes`, `check_uncommitted_changes`,
`check_untracked_files`), appending to the changes accumulated so far. -/
def indexChanges (st : RepoState) (changes : List String) : List String :=
  let c1 := if st.unstaged then changes ++ ["unstaged"] else changes
  let c2 := if st.uncommitted then c1 ++ ["uncommitted"] else c1
  if st.untracked then c2 ++ ["untracked"] else c2

/-- The working-tree/index/untracked checks followed by the unpushed
check, which is gated on `'pull-required' not in changes`. -/
def treeChanges (st : RepoState) (changes : List String) : List String :=
  let c3 := indexChanges st changes
  if "pull-required" ∈ c3 then c3
  else if st.unpushedDiff then c3 ++ ["unpushed"] else c3

/-- The tail of `checkrepo`: `if not changes and even_if_uptodate:` append
`up-to-date`; return the dictionary when `changes` is non-empty, else
`None`. -/
def finalize (path : String) (evenIfUptodate : Bool) (changes : List String) :
    CheckResult :=
  let c := if changes = [] ∧ evenIfUptodate = true then ["up-to-date"] else changes
  if c = [] then .noStatus else .status path c

/-- `checkrepo(path, even_if_uptodate)`: the classification pipeline in
source order — origin-URL check, revision triangle, `update_index`, the
working-tree checks, finalization.  Each probe `-1` aborts with `fail`. -/
def checkrepo (conf : Config) (path : String) (st : RepoState)
    (evenIfUptodate : Bool) : CheckResult :=
  match originChanges conf path st with
  | .error _ => .exn
  | .ok changes0 =>
    match triangleChanges st with
    | none => .fail
    | some tri =>
      if st.updateIndexOk = false then .fail
      else finalize path evenIfUptodate (treeChanges st (changes0 ++ tri))

/-- Result of `checkrepo_bool`: the exception, the `-1` pass-through, or
the boolean. -/
inductive BoolResult where
  | exn  : BoolResult
  | fail : BoolResult
  | val  : Bool → BoolResult
deriving DecidableEq

/-- `checkrepo_bool(path, even_if_uptodate)`: calls `checkrepo(path)` —
note the argument is NOT forwarded, so the classifier always runs with
`even_if_uptodate=False` — passes `-1` through, and otherwise returns
whether a report was produced. -/
def checkrepo_bool (conf : Config) (path : String) (st : RepoState)
    (evenIfUptodate : Bool) : BoolResult :=
  match checkrepo conf path st false with
  | .exn => .exn
  | .fail => .fail
  | .noStatus => .val false
  | .status _ _ => .val true

/-- Result of `check_paths` (collect mode): `exn` models a worker exception
re-raised by `pool.starmap`, `assertFail` the `assert isinstance(result, Dict)`
firing on a `-1` result, and `ok` the collected list of reports. -/
inductive CollectResult where
  | exn        : CollectResult
  | assertFail : CollectResult
  | ok         : List (String × List String) → CollectResult
deriving DecidableEq

/-- Whether a `checkrepo` result is the escaped `KeyError`. -/
def CheckResult.isExn : CheckResult → Bool
  | .exn => true
  | _ => false

/-- The result-collection loop of `check_paths`: `None` results are
skipped, the first `-1` trips the assertion, reports are collected in
input order (`pool.starmap` preserves order). -/
def collectLoop : List CheckResult → CollectResult
  | [] => .ok []
  | .exn :: _ => .exn
  | .fail :: _ => .assertFail
  | .noStatus :: rest => collectLoop rest
  | .status p cs :: rest =>
    match collectLoop rest with
    | .ok out => .ok ((p, cs) :: out)
    | e => e

/-- `check_paths(paths, include_uptodate, progress_bar)`: run `checkrepo`
over every repository and collect the non-`None` results.  A repository is
a pair of its path and its probe outcomes.  `pool.starmap` re-raises a
worker's exception when gathering results, before the loop body runs, so
any `KeyError` preempts everything else. -/
def check_paths (conf : Config) (repos : List (String × RepoState))
    (includeUptodate : Bool) : CollectResult :=
  let results := repos.map (fun pr => checkrepo conf pr.1 pr.2 includeUptodate)
  if results.any CheckResult.isExn then .exn
  else collectLoop results

/-- Result of `check_paths_with_exit_code`: a worker exception or the
process exit code. -/
inductive ExitResult where
  | exn  : ExitResult
  | code : Nat → ExitResult
deriving DecidableEq

/-- Whether a `checkrepo_bool` result is the escaped `KeyError`. -/
def BoolResult.isExn : BoolResult → Bool
  | .exn => true
  | _ => false

/-- `check_paths_with_exit_code(paths, include_uptodate, progress_bar)`:
run `checkrepo_bool` over every repository; int (`-1`) results are skipped
with `continue`; the exit code is 1 as soon as some result is `True`
(the loop then terminates the pool and breaks), else 0. -/
def check_paths_with_exit_code (conf : Config)
    (repos : List (String × RepoState)) (includeUptodate : Bool) : ExitResult :=
  let results := repos.map (fun pr => checkrepo_bool conf pr.1 pr.2 includeUptodate)
  if results.any BoolResult.isExn then .exn
  else .code (if results.any (fun r => r == .val true) then 1 else 0)

/-- Result of the `pull` command: a crash while classifying, or the list
of paths handed to `pull_from_origin` (in order). -/
inductive PullResult where
  | exn        : PullResult
  | assertFail : PullResult
  | pulled     : List String → PullResult
deriving DecidableEq

/-- The `pull` command: classify every candidate with
`check_paths(..., include_uptodate=False, ...)`, then keep exactly the
repos whose report satisfies
`len(item['changes']) == 1 and item['changes'][0] == 'pull-required'`
and pull those. -/
def pull (conf : Config) (repos : List (String × RepoState)) : PullResult :=
  match check_paths conf repos false with
  | .exn => .exn
  | .assertFail => .assertFail
  | .ok out =>
    .pulled ((out.filter
      (fun item => item.2.length == 1 && item.2.head? == some "pull-required")).map
      Prod.fst)

/-- What `track` can observe about one filesystem path: whether
`os.path.isdir(path + '/.git')` holds, and the `get_repo_url` outcome. -/
structure PathInfo where
  hasGitDir : Bool
  originUrl : UrlResult

/-- The `track_path.endswith('/.git')` normalization at the top of the
`track` loop: `if track_path.endswith('/.git'): track_path = track_path[:-5]`,
spelled out over the character list. -/
def stripGit (p : String) : String :=
  if (p.toList.reverse.take 5) = ("/.git".toList.reverse) then
    ⟨p.toList.take (p.toList.length - 5)⟩
  else p

/-- One iteration of the `track` loop: skip (with a printed diagnostic)
when the path is already tracked, is not a git directory, or its origin
URL probe fails; otherwise add the section and set the changed flag. -/
def trackStep (env : String → PathInfo) (acc : Config × Bool) (p0 : String) :
    Config × Bool :=
  let p := stripGit p0
  if acc.1.hasSection p then acc
  else if (env p).hasGitDir = false then acc
  else
    match (env p).originUrl with
    | .err => acc
    | .ok url => (acc.1.addSection p url, true)

/-- The `track` command over one invocation's path list: the final
in-memory config and whether `write_config()` runs (the `changed` flag).
Every per-path rejection uses `continue`, so it is a fold. -/
def track (env : String → PathInfo) (conf : Config) (paths : List String) :
    Config × Bool :=
  paths.foldl (trackStep env) (conf, false)

/-- The loop of the `ignore` command.  An untracked path prints
`not being tracked` and continues; a path whose flag is already `"true"`
prints `already ignored` and RETURNS from the whole command (source uses
`return`, not `continue`), so `write_config()` at the end never runs:
the second component is whether the trailing `if changed: write_config()`
is reached with `changed` true. -/
def ignoreGo (conf : Config) (changed : Bool) : List String → Config × Bool
  | [] => (conf, changed)
  | p :: rest =>
    match conf.lookup p with
    | none => ignoreGo conf changed rest
    | some rec' =>
      if rec'.ignore = "true" then (conf, false)
      else ignoreGo (conf.setIgnore p "true") true rest

/-- The `ignore` command's effect on the persisted store: the store file
is rewritten only when the loop falls through with `changed` true. -/
def ignoreRun (conf : Config) (paths : List String) : Config :=
  let r := ignoreGo conf false paths
  if r.2 then r.1 else conf

/-- The loop of the `unignore` command, symmetric to `ignoreGo`: a path
whose flag is already `"false"` prints `already un-ignored` and returns
from the whole command. -/
def unignoreGo (conf : Config) (changed : Bool) : List String → Config × Bool
  | [] => (conf, changed)
  | p :: rest =>
    match conf.lookup p with
    | none => unignoreGo conf changed rest
    | some rec' =>
      if rec'.ignore = "false" then (conf, false)
      else unignoreGo (conf.setIgnore p "false") true rest

/-- The `unignore` command's effect on the persisted store. -/
def unignoreRun (conf : Config) (paths : List String) : Config :=
  let r := unignoreGo conf false paths
  if r.2 then r.1 else conf

/-! ### Structural lemmas about the classifier -/

/-- The origin-URL check can only contribute nothing, `url-mismatch`, or
`origin-url-error`. -/
lemma originChanges_cases {conf : Config} {path : String} {st : RepoState}
    {cs : List String} (h : originChanges conf path st = .ok cs) :
    cs = [] ∨ cs = ["url-mismatch"] ∨ cs = ["origin-url-error"] := by
  unfold originChanges at h
  split at h
  · split at h
    · exact absurd h (by simp)
    · cases h
      simp
  · split at h
    · cases h
      simp
    · split at h
      · exact absurd h (by simp)
      · split at h
        · cases h
          simp
        · cases h
          simp

/-- The revision triangle can only contribute nothing,
`no-upstream-branch`, `pull-required`, or `diverged`. -/
lemma triangleChanges_cases {st : RepoState} {tri : List String}
    (h : triangleChanges st = some tri) :
    tri = [] ∨ tri = ["no-upstream-branch"] ∨ tri = ["pull-required"] ∨
      tri = ["diverged"] := by
  unfold triangleChanges at h
  split at h
  · exact absurd h (by simp)
  · split at h
    · exact absurd h (by simp)
    · cases h
      simp
    · split at h
      · exact absurd h (by simp)
      · cases h
        split_ifs <;> simp

/-- Membership transfer through the three unconditional working-tree
appends, for any kind other than the three appended there. -/
lemma mem_indexChanges_iff {st : RepoState} {c : List String} {x : String}
    (h1 : x ≠ "unstaged") (h2 : x ≠ "uncommitted") (h3 : x ≠ "untracked") :
    x ∈ indexChanges st c ↔ x ∈ c := by
  simp only [indexChanges]
  by_cases b1 : st.unstaged = true <;> by_cases b2 : st.uncommitted = true <;>
    by_cases b3 : st.untracked = true <;>
    simp [b1, b2, b3, List.mem_append, h1, h2, h3]

/-- Membership transfer through the whole working-tree stage, for any kind
other than the four appended there. -/
lemma mem_treeChanges_iff {st : RepoState} {c : List String} {x : String}
    (h1 : x ≠ "unstaged") (h2 : x ≠ "uncommitted") (h3 : x ≠ "untracked")
    (h4 : x ≠ "unpushed") :
    x ∈ treeChanges st c ↔ x ∈ c := by
  simp only [treeChanges]
  by_cases hmem : "pull-required" ∈ indexChanges st c
  · rw [if_pos hmem]
    exact mem_indexChanges_iff h1 h2 h3
  · rw [if_neg hmem]
    by_cases hd : st.unpushedDiff = true
    · rw [if_pos hd, List.mem_append]
      rw [mem_indexChanges_iff h1 h2 h3]
      constructor
      · rintro (h' | h')
        · exact h'
        · rw [List.mem_singleton] at h'
          exact absurd h' h4
      · exact Or.inl
    · rw [if_neg hd]
      exact mem_indexChanges_iff h1 h2 h3

/-- The unpushed gate: starting from a changes list that does not yet
contain `unpushed`, the result never holds both `pull-required` and
`unpushed`. -/
lemma treeChanges_pull_unpushed {st : RepoState} {c : List String}
    (hc : "unpushed" ∉ c) :
    ¬("pull-required" ∈ treeChanges st c ∧ "unpushed" ∈ treeChanges st c) := by
  have hup : "unpushed" ∉ indexChanges st c := by
    rw [mem_indexChanges_iff (by decide) (by decide) (by decide)]
    exact hc
  rintro ⟨hp, hu⟩
  simp only [treeChanges] at hp hu
  by_cases hmem : "pull-required" ∈ indexChanges st c
  · rw [if_pos hmem] at hu
    exact hup hu
  · rw [if_neg hmem] at hp hu
    by_cases hd : st.unpushedDiff = true
    · rw [if_pos hd, List.mem_append] at hp
      rcases hp with hp | hp
      · exact hmem hp
      · simp at hp
    · rw [if_neg hd] at hp
      exact hmem hp

/-- `finalize` never returns an empty-changes report, always echoes the
path it was given, and only ever invents the `up-to-date` kind. -/
lemma finalize_status {path : String} {b : Bool} {c : List String}
    {p : String} {cs : List String} (h : finalize path b c = .status p cs) :
    p = path ∧ cs ≠ [] ∧
      (cs = c ∨ (c = [] ∧ b = true ∧ cs = ["up-to-date"])) := by
  simp only [finalize] at h
  by_cases hc : c = [] ∧ b = true
  · rw [if_pos hc] at h
    rw [if_neg (by simp : ¬(["up-to-date"] = ([] : List String)))] at h
    cases h
    exact ⟨rfl, by simp, Or.inr ⟨hc.1, hc.2, rfl⟩⟩
  · rw [if_neg hc] at h
    split at h
    · exact absurd h (by simp)
    · rename_i hne
      cases h
      exact ⟨rfl, hne, Or.inl rfl⟩

/-- `finalize` returns `None` exactly when nothing was appended and
`up-to-date` was not requested. -/
lemma finalize_noStatus {path : String} {b : Bool} {c : List String} :
    finalize path b c = .noStatus ↔ (c = [] ∧ b = false) := by
  simp only [finalize]
  by_cases hc : c = [] ∧ b = true
  · rw [if_pos hc]
    simp [hc.1, hc.2]
  · rw [if_neg hc]
    by_cases hcc : c = []
    · rw [if_pos hcc]
      have hb : b = false := by
        rcases b with _ | _
        · rfl
        · exact absurd ⟨hcc, rfl⟩ hc
      simp [hcc, hb]
    · rw [if_neg hcc]
      simp [hcc]

/-- Inversion for a successful classification: the probe stages it went
through and the final changes computation. -/
lemma checkrepo_status {conf : Config} {path : String} {st : RepoState}
    {b : Bool} {p : String} {cs : List String}
    (h : checkrepo conf path st b = .status p cs) :
    ∃ c0 tri, originChanges conf path st = .ok c0 ∧
      triangleChanges st = some tri ∧ st.updateIndexOk = true ∧
      finalize path b (treeChanges st (c0 ++ tri)) = .status p cs := by
  unfold checkrepo at h
  split at h
  · exact absurd h (by simp)
  · rename_i c0 ho
    split at h
    · exact absurd h (by simp)
    · rename_i tri ht
      split at h
      · exact absurd h (by simp)
      · rename_i hidx
        exact ⟨c0, tri, ho, ht, by simpa using hidx, h⟩

/-- Evaluation: a `KeyError` in the origin-URL check escapes whatever the
requested mode. -/
lemma checkrepo_eval_exn {conf : Config} {path : String} {st : RepoState}
    {u : Unit} (ho : originChanges conf path st = .error u) (b : Bool) :
    checkrepo conf path st b = .exn := by
  unfold checkrepo
  rw [ho]

/-- Evaluation: a failing revision probe aborts the classification. -/
lemma checkrepo_eval_fail_triangle {conf : Config} {path : String}
    {st : RepoState} {c0 : List String}
    (ho : originChanges conf path st = .ok c0) (ht : triangleChanges st = none)
    (b : Bool) : checkrepo conf path st b = .fail := by
  unfold checkrepo
  rw [ho, ht]

/-- Evaluation: a failing `update_index` aborts the classification. -/
lemma checkrepo_eval_fail_index {conf : Config} {path : String}
    {st : RepoState} {c0 tri : List String}
    (ho : originChanges conf path st = .ok c0)
    (ht : triangleChanges st = some tri) (hidx : st.updateIndexOk = false)
    (b : Bool) : checkrepo conf path st b = .fail := by
  unfold checkrepo
  rw [ho, ht]
  simp [hidx]

/-- Evaluation: when every probe succeeds the result is the finalized
working-tree changes. -/
lemma checkrepo_eval_ok {conf : Config} {path : String} {st : RepoState}
    {c0 tri : List String} (ho : originChanges conf path st = .ok c0)
    (ht : triangleChanges st = some tri) (hidx : st.updateIndexOk = true)
    (b : Bool) :
    checkrepo conf path st b = finalize path b (treeChanges st (c0 ++ tri)) := by
  unfold checkrepo
  rw [ho, ht]
  simp [hidx]

/-- `unpushed` is never among the changes accumulated before the
working-tree stage. -/
lemma unpushed_not_mem_base {conf : Config} {path : String} {st : RepoState}
    {c0 tri : List String} (ho : originChanges conf path st = .ok c0)
    (ht : triangleChanges st = some tri) : "unpushed" ∉ c0 ++ tri := by
  rcases originChanges_cases ho with h0 | h0 | h0 <;>
    rcases triangleChanges_cases ht with h1 | h1 | h1 | h1 <;>
    rw [h0, h1] <;> decide

/-- `up-to-date` is never among the changes accumulated before the
working-tree stage. -/
lemma up_to_date_not_mem_base {conf : Config} {path : String} {st : RepoState}
    {c0 tri : List String} (ho : originChanges conf path st = .ok c0)
    (ht : triangleChanges st = some tri) : "up-to-date" ∉ c0 ++ tri := by
  rcases originChanges_cases ho with h0 | h0 | h0 <;>
    rcases triangleChanges_cases ht with h1 | h1 | h1 | h1 <;>
    rw [h0, h1] <;> decide

/-- On a branch with no upstream the revision triangle contributes exactly
`no-upstream-branch` whenever it completes. -/
lemma triangleChanges_noUpstream {st : RepoState} {tri : List String}
    (hr : st.remote = .noUpstream) (ht : triangleChanges st = some tri) :
    tri = ["no-upstream-branch"] := by
  unfold triangleChanges at ht
  rcases hl : st.localRev with _ | l <;> rw [hl] at ht
  · simp at ht
  · rw [hr] at ht
    simpa using ht.symm

/-! ### Concrete repositories used by witnesses and counterexamples -/

/-- A store tracking path `p` with URL `u` and path `a`, `b`, `c` repos. -/
def exConfig : Config :=
  ⟨[("p", ⟨"u", "false"⟩), ("a", ⟨"u", "false"⟩), ("b", ⟨"u", "false"⟩),
    ("c", ⟨"u", "false"⟩)]⟩

/-- A fully clean, in-sync repository whose origin URL matches the store. -/
def stateClean : RepoState :=
  ⟨.ok "u", some "l", .ok "l", some "l", true, false, false, false, false⟩

/-- A repository whose branch has no upstream, all probes clean except the
unpushed-diff check (which, against a missing upstream, reports true). -/
def stateNoUpstream : RepoState :=
  ⟨.ok "u", some "l", .noUpstream, none, true, false, false, false, true⟩

/-- A repository strictly behind its upstream: `local = base ≠ remote`,
working tree clean. -/
def statePull : RepoState :=
  ⟨.ok "u", some "l", .ok "r", some "l", true, false, false, false, true⟩

/-- Behind its upstream and with unstaged local changes. -/
def statePullUnstaged : RepoState :=
  ⟨.ok "u", some "l", .ok "r", some "l", true, true, false, false, true⟩

/-- A repository whose `git rev-parse @` probe fails (`get_local` → -1). -/
def stateLocalFail : RepoState :=
  ⟨.ok "u", none, .ok "r", some "l", true, false, false, false, false⟩

/-- A repository whose `git config --get remote.origin.url` probe fails
with a non-zero exit code (`get_repo_url` → -1). -/
def stateUrlProbeFail : RepoState :=
  ⟨.err, some "l", .ok "l", some "l", true, false, false, false, false⟩

/-- A repository whose origin URL is recorded empty. -/
def stateEmptyUrl : RepoState :=
  ⟨.ok "", some "l", .ok "l", some "l", true, false, false, false, false⟩

/-! ### Claims -/

/-- C1, counterexample: a repository whose branch has no configured
upstream and whose working-tree, index and untracked checks are all clean
does NOT always classify to `["no-upstream-branch"]`: the unpushed-diff
check is still computed (the gate only looks for `pull-required`), so when
it reports true — which `git diff @\x7bu\x7d..` against a missing upstream
does — `unpushed` is appended as well. -/
theorem claim1_counterexample :
    stateNoUpstream.remote = RemoteResult.noUpstream ∧
    stateNoUpstream.unstaged = false ∧ stateNoUpstream.uncommitted = false ∧
    stateNoUpstream.untracked = false ∧
    checkrepo exConfig "p" stateNoUpstream false =
      CheckResult.status "p" ["no-upstream-branch", "unpushed"] ∧
    checkrepo exConfig "p" stateNoUpstream false ≠
      CheckResult.status "p" ["no-upstream-branch"] := by
  refine ⟨rfl, rfl, rfl, rfl, rfl, ?_⟩
  decide

/-- C1 (amended): for a repository whose branch has no configured
upstream, whose origin URL is non-empty and matches the store record, and
whose working-tree, index, untracked AND unpushed-diff checks are all
clean, `checkrepo` returns exactly `["no-upstream-branch"]`; moreover for
every no-upstream repository, `pull-required` and `diverged` never appear
in a successful classification (the base comparison is skipped entirely —
only the unpushed-diff check still runs). -/
theorem claim1_no_upstream (conf : Config) (path : String) (st : RepoState)
    (rec' : StoreRecord) (l : String)
    (hlook : conf.lookup path = some rec') (hurl : st.originUrl = .ok rec'.url)
    (hne : rec'.url ≠ "") (hl : st.localRev = some l)
    (hr : st.remote = .noUpstream) (hidx : st.updateIndexOk = true)
    (h1 : st.unstaged = false) (h2 : st.uncommitted = false)
    (h3 : st.untracked = false) (h4 : st.unpushedDiff = false) :
    checkrepo conf path st false = .status path ["no-upstream-branch"] ∧
    ∀ (conf' : Config) (path' : String) (st' : RepoState) (b : Bool)
      (p : String) (cs : List String), st'.remote = .noUpstream →
      checkrepo conf' path' st' b = .status p cs →
      "pull-required" ∉ cs ∧ "diverged" ∉ cs := by
  constructor
  · simp [checkrepo, originChanges, triangleChanges, treeChanges,
      indexChanges, finalize, hlook, hurl, hne, hl, hr, hidx, h1, h2, h3, h4]
  · intro conf' path' st' b p cs hr' h
    obtain ⟨c0, tri, ho, ht, hidx', hfin⟩ := checkrepo_status h
    obtain ⟨hp, hcsne, hcs⟩ := finalize_status hfin
    have htri := triangleChanges_noUpstream hr' ht
    subst htri
    rcases hcs with hcs | ⟨hc, hb, hcs⟩ <;> subst hcs
    · constructor
      · rw [mem_treeChanges_iff (by decide) (by decide) (by decide) (by decide)]
        rcases originChanges_cases ho with h0 | h0 | h0 <;> rw [h0] <;> decide
      · rw [mem_treeChanges_iff (by decide) (by decide) (by decide) (by decide)]
        rcases originChanges_cases ho with h0 | h0 | h0 <;> rw [h0] <;> decide
    · decide

/-- C1, witness for the amended theorem: the concrete no-upstream
repository that is clean on every check, including the unpushed diff. -/
theorem claim1_witness :
    checkrepo exConfig "p"
      ⟨.ok "u", some "l", .noUpstream, none, true, false, false, false, false⟩
      false = CheckResult.status "p" ["no-upstream-branch"] :=
  (claim1_no_upstream exConfig "p"
    ⟨.ok "u", some "l", .noUpstream, none, true, false, false, false, false⟩
    ⟨"u", "false"⟩ "l" rfl rfl (by decide) rfl rfl rfl rfl rfl rfl rfl).1

/-- C4: a successful classification never reports both `pull-required`
and `unpushed`: the unpushed-diff check is skipped whenever
`pull-required` was appended. -/
theorem claim4_pull_unpushed_exclusive (conf : Config) (path : String)
    (st : RepoState) (b : Bool) (p : String) (cs : List String)
    (h : checkrepo conf path st b = .status p cs) :
    ¬("pull-required" ∈ cs ∧ "unpushed" ∈ cs) := by
  obtain ⟨c0, tri, ho, ht, hidx, hfin⟩ := checkrepo_status h
  obtain ⟨hp, hcsne, hcs⟩ := finalize_status hfin
  rcases hcs with hcs | ⟨hc, hb, hcs⟩ <;> subst hcs
  · exact treeChanges_pull_unpushed (unpushed_not_mem_base ho ht)
  · decide

/-- C4, witness: the concrete pull-required repository. -/
theorem claim4_witness :
    ¬(("pull-required" ∈ (["pull-required"] : List String)) ∧
      ("unpushed" ∈ (["pull-required"] : List String))) :=
  claim4_pull_unpushed_exclusive exConfig "p" statePull false "p"
    ["pull-required"] rfl

/-- C5: `up-to-date` appears in a report iff it was requested and nothing
else was appended (in which case the report is exactly `["up-to-date"]`);
an empty-changes report is never produced; and the `None` result at
`include_up_to_date = false` coincides exactly with the repositories that
would report `["up-to-date"]` when it is requested. -/
theorem claim5_up_to_date (conf : Config) (path : String) (st : RepoState) :
    (∀ (b : Bool) (p : String) (cs : List String),
        checkrepo conf path st b = .status p cs →
          ("up-to-date" ∈ cs ↔ b = true ∧ cs = ["up-to-date"]))
    ∧ (∀ (b : Bool) (p : String), checkrepo conf path st b ≠ .status p [])
    ∧ (checkrepo conf path st false = .noStatus ↔
        checkrepo conf path st true = .status path ["up-to-date"]) := by
  refine ⟨?_, ?_, ?_⟩
  · intro b p cs h
    obtain ⟨c0, tri, ho, ht, hidx, hfin⟩ := checkrepo_status h
    obtain ⟨hp, hcsne, hcs⟩ := finalize_status hfin
    rcases hcs with hcs | ⟨hc, hb, hcs⟩ <;> subst hcs
    · have hut : "up-to-date" ∉ treeChanges st (c0 ++ tri) := by
        rw [mem_treeChanges_iff (by decide) (by decide) (by decide) (by decide)]
        exact up_to_date_not_mem_base ho ht
      apply iff_of_false hut
      rintro ⟨hb, hcs'⟩
      rw [hcs'] at hut
      exact hut (by decide)
    · subst hb
      exact iff_of_true (by decide) ⟨rfl, rfl⟩
  · intro b p h
    obtain ⟨c0, tri, ho, ht, hidx, hfin⟩ := checkrepo_status h
    obtain ⟨hp, hcsne, hcs⟩ := finalize_status hfin
    exact hcsne rfl
  · rcases ho : originChanges conf path st with u | c0
    · simp [checkrepo_eval_exn ho]
    · rcases ht : triangleChanges st with _ | tri
      · simp [checkrepo_eval_fail_triangle ho ht]
      · by_cases hidx : st.updateIndexOk = false
        · simp [checkrepo_eval_fail_index ho ht hidx]
        · rw [checkrepo_eval_ok ho ht (by simpa using hidx),
            checkrepo_eval_ok ho ht (by simpa using hidx)]
          rw [finalize_noStatus]
          have hut : "up-to-date" ∉ treeChanges st (c0 ++ tri) := by
            rw [mem_treeChanges_iff (by decide) (by decide) (by decide)
              (by decide)]
            exact up_to_date_not_mem_base ho ht
          constructor
          · rintro ⟨hempty, -⟩
            rw [hempty]
            simp [finalize]
          · intro h
            obtain ⟨hp, hcsne, hcs⟩ := finalize_status h
            rcases hcs with hcs | ⟨hc, hb, hcs⟩
            · exact absurd (hcs ▸ List.mem_singleton.mpr rfl) hut
            · exact ⟨hc, rfl⟩

/-- C5, witness: the concrete clean repository reports nothing when
`up-to-date` is not requested, and exactly `["up-to-date"]` when it is. -/
theorem claim5_witness :
    ("up-to-date" ∈ (["up-to-date"] : List String) ↔
      true = true ∧ (["up-to-date"] : List String) = ["up-to-date"]) ∧
    (checkrepo exConfig "p" stateClean false = CheckResult.noStatus ↔
      checkrepo exConfig "p" stateClean true =
        CheckResult.status "p" ["up-to-date"]) :=
  ⟨(claim5_up_to_date exConfig "p" stateClean).1 true "p" ["up-to-date"] rfl,
   (claim5_up_to_date exConfig "p" stateClean).2.2⟩

/-- C10: `checkrepo_bool` ignores its `even_if_uptodate` argument — it
calls `checkrepo(path)` with the default `even_if_uptodate=False` — so its
result is independent of the flag and a clean repository is never counted
as changed in boolean mode. -/
theorem claim10_bool_ignores_flag (conf : Config) (path : String)
    (st : RepoState) (b1 b2 : Bool) :
    checkrepo_bool conf path st b1 = checkrepo_bool conf path st b2 ∧
    (checkrepo conf path st false = .noStatus →
      checkrepo_bool conf path st b1 = .val false) := by
  refine ⟨rfl, ?_⟩
  intro h
  unfold checkrepo_bool
  rw [h]

/-- C10, witness: the clean repository yields `False` in boolean mode even
with `even_if_uptodate = true`. -/
theorem claim10_witness :
    checkrepo_bool exConfig "p" stateClean true = BoolResult.val false :=
  (claim10_bool_ignores_flag exConfig "p" stateClean true false).2 rfl

/-- An empty tracking store. -/
def emptyConfig : Config := ⟨[]⟩

/-- A store with `a` tracked un-ignored, `b` tracked ignored, and `c`
tracked un-ignored. -/
def ignoreConfig : Config :=
  ⟨[("a", ⟨"ua", "false"⟩), ("b", ⟨"ub", "true"⟩), ("c", ⟨"uc", "false"⟩)]⟩

/-- C2: the claimed behavior — "if the store has no record, skip the URL
comparison silently and continue classifying" — does not hold: for an
untracked path whose origin URL probe returns a non-empty URL,
`config[path]['url']` raises `KeyError` and classification crashes instead
of continuing (in either mode). -/
theorem claim2_untracked_keyerror :
    Config.lookup emptyConfig "q" = none ∧
    stateClean.originUrl = UrlResult.ok "u" ∧
    checkrepo emptyConfig "q" stateClean false = CheckResult.exn ∧
    checkrepo emptyConfig "q" stateClean true = CheckResult.exn :=
  ⟨rfl, rfl, rfl, rfl⟩

/-- C3: when the origin-URL probe FAILS (non-zero exit, `get_repo_url`
returns `-1`), the guard `if not origin_url:` does not fire (`-1` is
truthy), so the code appends `url-mismatch` — not `origin-url-error` as
claimed; only the empty-string value reaches the `origin-url-error`
branch. -/
theorem claim3_probe_fail_mislabeled :
    checkrepo exConfig "p" stateUrlProbeFail false =
      CheckResult.status "p" ["url-mismatch"] ∧
    checkrepo exConfig "p" stateEmptyUrl false =
      CheckResult.status "p" ["origin-url-error"] :=
  ⟨rfl, rfl⟩

/-- C8: an `already ignored` error does NOT merely skip that path: the
loop body executes `return`, so with paths `[a, b, c]` where `b` is
already ignored, `a`'s flip is applied in memory but `write_config()` is
never reached (the persisted store is unchanged) and `c` is never
processed; likewise `unignore` returns on `already un-ignored`, so `b` is
never un-ignored when `a` precedes it. -/
theorem claim8_return_skips_siblings :
    ignoreGo ignoreConfig false ["a", "b", "c"] =
      (⟨[("a", ⟨"ua", "true"⟩), ("b", ⟨"ub", "true"⟩),
         ("c", ⟨"uc", "false"⟩)]⟩, false) ∧
    ignoreRun ignoreConfig ["a", "b", "c"] = ignoreConfig ∧
    ignoreRun ignoreConfig ["a", "c"] =
      ⟨[("a", ⟨"ua", "true"⟩), ("b", ⟨"ub", "true"⟩), ("c", ⟨"uc", "true"⟩)]⟩ ∧
    unignoreRun ignoreConfig ["a", "b"] = ignoreConfig :=
  ⟨rfl, rfl, rfl, rfl⟩

/-! ### The track command -/

/-- Adding a fresh section does not disturb lookups of other paths. -/
lemma lookup_addSection {c : Config} {p u q : String} (h : q ≠ p) :
    (c.addSection p u).lookup q = c.lookup q := by
  unfold Config.addSection Config.lookup
  have hpq : (p == q) = false := beq_eq_false_iff_ne.mpr (Ne.symm h)
  rcases c with ⟨secs⟩
  induction secs with
  | nil => simp [List.find?, hpq]
  | cons s rest ih =>
    by_cases hs : (s.1 == q) = true
    · simp [List.find?, hs]
    · rw [Bool.not_eq_true] at hs
      simpa [List.find?, hs] using ih

/-- A path (after `.git` stripping) with no `.git` directory is always
rejected by the track loop. -/
lemma trackStep_nogit {env : String → PathInfo} {acc : Config × Bool}
    {p0 : String} (h : (env (stripGit p0)).hasGitDir = false) :
    trackStep env acc p0 = acc := by
  simp only [trackStep]
  by_cases hs : acc.1.hasSection (stripGit p0) = true
  · rw [if_pos hs]
  · rw [if_neg hs, if_pos h]

/-- Each track iteration either leaves the accumulator alone or adds a
section and raises the changed flag. -/
lemma trackStep_cases (env : String → PathInfo) (acc : Config × Bool)
    (p0 : String) :
    trackStep env acc p0 = acc ∨
      ∃ url, trackStep env acc p0 =
        (acc.1.addSection (stripGit p0) url, true) := by
  simp only [trackStep]
  by_cases hs : acc.1.hasSection (stripGit p0) = true
  · rw [if_pos hs]
    exact Or.inl rfl
  · rw [if_neg hs]
    by_cases hg : (env (stripGit p0)).hasGitDir = false
    · rw [if_pos hg]
      exact Or.inl rfl
    · rw [if_neg hg]
      rcases hu : (env (stripGit p0)).originUrl with _ | url
      · exact Or.inl rfl
      · exact Or.inr ⟨url, rfl⟩

/-- A track iteration never touches the store record of a path that has no
`.git` directory. -/
lemma trackStep_lookup {env : String → PathInfo} {acc : Config × Bool}
    {p0 q : String} (hq : (env q).hasGitDir = false) :
    ((trackStep env acc p0).1).lookup q = acc.1.lookup q := by
  simp only [trackStep]
  by_cases hs : acc.1.hasSection (stripGit p0) = true
  · rw [if_pos hs]
  · rw [if_neg hs]
    by_cases hg : (env (stripGit p0)).hasGitDir = false
    · rw [if_pos hg]
    · rw [if_neg hg]
      rcases hu : (env (stripGit p0)).originUrl with _ | url
      · rfl
      · apply lookup_addSection
        intro hqe
        rw [hqe] at hq
        exact hg hq

/-- The changed flag never goes back down. -/
lemma track_flag_mono (env : String → PathInfo) :
    ∀ (paths : List String) (acc : Config × Bool), acc.2 = true →
      (paths.foldl (trackStep env) acc).2 = true := by
  intro paths
  induction paths with
  | nil => intro acc h; exact h
  | cons p rest ih =>
    intro acc h
    rcases trackStep_cases env acc p with hc | ⟨url, hc⟩ <;>
      simp only [List.foldl_cons, hc]
    · exact ih acc h
    · exact ih _ rfl

/-- The whole track run never touches the store record of a path that has
no `.git` directory. -/
lemma track_foldl_lookup {env : String → PathInfo} {q : String}
    (hq : (env q).hasGitDir = false) :
    ∀ (paths : List String) (acc : Config × Bool),
      ((paths.foldl (trackStep env) acc).1).lookup q = acc.1.lookup q := by
  intro paths
  induction paths with
  | nil => intro acc; rfl
  | cons p rest ih =>
    intro acc
    rw [List.foldl_cons, ih (trackStep env acc p), trackStep_lookup hq]

/-- If the changed flag ends false, nothing at all happened. -/
lemma track_foldl_false {env : String → PathInfo} :
    ∀ (paths : List String) (acc : Config × Bool),
      (paths.foldl (trackStep env) acc).2 = false →
      paths.foldl (trackStep env) acc = acc := by
  intro paths
  induction paths with
  | nil => intro acc _; rfl
  | cons p rest ih =>
    intro acc h
    rw [List.foldl_cons] at h ⊢
    rcases trackStep_cases env acc p with hc | ⟨url, hc⟩
    · rw [hc] at h ⊢
      exact ih acc h
    · rw [hc] at h
      rw [track_flag_mono env rest _ rfl] at h
      cases h

/-- If every path of the invocation lacks a `.git` directory, the run is a
no-op. -/
lemma track_foldl_allfail {env : String → PathInfo} :
    ∀ (paths : List String) (acc : Config × Bool),
      (∀ r ∈ paths, (env (stripGit r)).hasGitDir = false) →
      paths.foldl (trackStep env) acc = acc := by
  intro paths
  induction paths with
  | nil => intro acc _; rfl
  | cons p rest ih =>
    intro acc h
    rw [List.foldl_cons, trackStep_nogit (h p (List.mem_cons_self p rest))]
    exact ih acc (fun r hr => h r (List.mem_cons_of_mem p hr))

/-- C9: a `track` invocation containing a path with no `.git` working-copy
marker rejects that path: its store record is untouched (no section added,
none removed), a false changed flag means the store file is not rewritten
and the in-memory store is exactly the original, and if every path of the
invocation lacks the marker nothing is written at all.  (The embedding is
total — no exception escapes.) -/
theorem claim9_track_rejects (env : String → PathInfo) (conf : Config)
    (paths : List String) (p : String) (hp : p ∈ paths)
    (hgit : (env (stripGit p)).hasGitDir = false) :
    (track env conf paths).1.lookup (stripGit p) = conf.lookup (stripGit p) ∧
    ((track env conf paths).2 = false → track env conf paths = (conf, false)) ∧
    ((∀ r ∈ paths, (env (stripGit r)).hasGitDir = false) →
      track env conf paths = (conf, false)) := by
  refine ⟨?_, ?_, ?_⟩
  · exact track_foldl_lookup hgit paths (conf, false)
  · exact track_foldl_false paths (conf, false)
  · exact track_foldl_allfail paths (conf, false)

/-- A filesystem on which no path is a git working copy. -/
def envNoGit : String → PathInfo := fun _ => ⟨false, .err⟩

/-- C9, witness: tracking a non-working-copy path leaves the store exactly
as it was and writes nothing. -/
theorem claim9_witness : track envNoGit exConfig ["q"] = (exConfig, false) :=
  (claim9_track_rejects envNoGit exConfig ["q"] "q" (by decide) rfl).2.2
    (fun r hr => rfl)

/-! ### The batch runners -/

/-- A successful classification always echoes the path it was given. -/
lemma checkrepo_status_path {conf : Config} {path : String} {st : RepoState}
    {b : Bool} {p : String} {cs : List String}
    (h : checkrepo conf path st b = .status p cs) : p = path := by
  obtain ⟨c0, tri, ho, ht, hidx, hfin⟩ := checkrepo_status h
  exact (finalize_status hfin).1

/-- A successful classification never carries an empty changes list. -/
lemma checkrepo_changes_ne_nil {conf : Config} {path : String}
    {st : RepoState} {b : Bool} {p : String} {cs : List String}
    (h : checkrepo conf path st b = .status p cs) : cs ≠ [] := by
  obtain ⟨c0, tri, ho, ht, hidx, hfin⟩ := checkrepo_status h
  exact (finalize_status hfin).2.1

/-- The boolean wrapper passes the `KeyError` through unchanged. -/
lemma checkrepo_bool_eq_exn {conf : Config} {path : String} {st : RepoState}
    {b : Bool} :
    checkrepo_bool conf path st b = .exn ↔
      checkrepo conf path st false = .exn := by
  unfold checkrepo_bool
  cases h : checkrepo conf path st false <;> simp

/-- The boolean wrapper answers `True` exactly on the repositories that
produce a report. -/
lemma checkrepo_bool_eq_true {conf : Config} {path : String} {st : RepoState}
    {b : Bool} :
    checkrepo_bool conf path st b = .val true ↔
      ∃ p cs, checkrepo conf path st false = .status p cs := by
  unfold checkrepo_bool
  cases h : checkrepo conf path st false <;> simp

/-- The collect loop, when no repository crashed or failed, gathers
exactly the reports in input order. -/
lemma collectLoop_clean {conf : Config} {b : Bool} :
    ∀ repos : List (String × RepoState),
      (∀ pr ∈ repos, checkrepo conf pr.1 pr.2 b ≠ .exn ∧
        checkrepo conf pr.1 pr.2 b ≠ .fail) →
      collectLoop (repos.map (fun pr => checkrepo conf pr.1 pr.2 b)) =
        .ok (repos.filterMap (fun pr =>
          match checkrepo conf pr.1 pr.2 b with
          | .status p cs => some (p, cs)
          | _ => none)) := by
  intro repos
  induction repos with
  | nil => intro _; rfl
  | cons pr rest ih =>
    intro h
    have hpr := h pr (List.mem_cons_self pr rest)
    have hrest := fun x hx => h x (List.mem_cons_of_mem pr hx)
    rw [List.map_cons, List.filterMap_cons]
    cases hc : checkrepo conf pr.1 pr.2 b
    · exact absurd hc hpr.1
    · exact absurd hc hpr.2
    · simpa [collectLoop, hc] using ih hrest
    · simp only [hc]
      rw [collectLoop, ih hrest]

/-- `check_paths` under the same benign hypothesis. -/
lemma check_paths_clean {conf : Config} {repos : List (String × RepoState)}
    {b : Bool}
    (h : ∀ pr ∈ repos, checkrepo conf pr.1 pr.2 b ≠ .exn ∧
      checkrepo conf pr.1 pr.2 b ≠ .fail) :
    check_paths conf repos b = .ok (repos.filterMap (fun pr =>
      match checkrepo conf pr.1 pr.2 b with
      | .status p cs => some (p, cs)
      | _ => none)) := by
  simp only [check_paths]
  have hexn : (repos.map (fun pr => checkrepo conf pr.1 pr.2 b)).any
      CheckResult.isExn = false := by
    rw [List.any_eq_false]
    intro r hr
    rw [List.mem_map] at hr
    obtain ⟨pr, hpr, rfl⟩ := hr
    intro hex
    cases hc : checkrepo conf pr.1 pr.2 b
    · exact (h pr hpr).1 hc
    · rw [hc] at hex
      simp [CheckResult.isExn] at hex
    · rw [hc] at hex
      simp [CheckResult.isExn] at hex
    · rw [hc] at hex
      simp [CheckResult.isExn] at hex
  rw [hexn]
  rw [if_neg (by decide)]
  exact collectLoop_clean repos h

/-- A changes list passes the `len == 1 and [0] == 'pull-required'` test
exactly when it is the singleton `["pull-required"]`. -/
lemma singleton_pull_check (cs : List String) :
    ((cs.length == 1 && cs.head? == some "pull-required") = true) ↔
      cs = ["pull-required"] := by
  cases cs with
  | nil => simp
  | cons a t =>
    cases t with
    | nil => simp [List.head?]
    | cons a2 t2 => simp

/-- Selecting the singleton `pull-required` reports out of the collected
statuses is the same as filtering the repositories by their
classification. -/
lemma filterMap_filter_pull {conf : Config}
    (repos : List (String × RepoState)) :
    ((repos.filterMap (fun pr =>
        match checkrepo conf pr.1 pr.2 false with
        | .status p cs => some (p, cs)
        | _ => none)).filter
      (fun item => item.2.length == 1 &&
        item.2.head? == some "pull-required")).map Prod.fst =
    (repos.filter (fun pr =>
      checkrepo conf pr.1 pr.2 false ==
        .status pr.1 ["pull-required"])).map Prod.fst := by
  induction repos with
  | nil => rfl
  | cons pr rest ih =>
    rw [List.filterMap_cons, List.filter_cons]
    cases hc : checkrepo conf pr.1 pr.2 false
    · simp only [hc]
      simpa using ih
    · simp only [hc]
      simpa using ih
    · simp only [hc]
      simpa using ih
    · rename_i p cs
      have hp : p = pr.1 := checkrepo_status_path hc
      subst hp
      simp only [hc]
      by_cases hcs : cs = ["pull-required"]
      · subst hcs
        simp only [List.filter_cons,
          if_pos (singleton_pull_check _ |>.mpr rfl), List.map_cons,
          if_pos (beq_iff_eq.mpr rfl), ih]
      · rw [List.filter_cons]
        rw [if_neg (fun hmem => hcs ((singleton_pull_check cs).mp hmem))]
        rw [if_neg (fun hbeq => hcs (by simpa using beq_iff_eq.mp hbeq))]
        exact ih

/-- C6, counterexample: with one repo needing a pull and a sibling whose
`rev-parse @` probe fails, `check_paths` trips its
`assert isinstance(result, Dict)` on the sibling's `-1`, so `pull` crashes
and pulls nothing — the pull-required repo included. -/
theorem claim6_counterexample :
    checkrepo exConfig "a" statePull false =
      CheckResult.status "a" ["pull-required"] ∧
    pull exConfig [("a", statePull), ("p", stateLocalFail)] =
      PullResult.assertFail ∧
    pull exConfig [("a", statePull), ("p", stateLocalFail)] ≠
      PullResult.pulled ["a"] :=
  ⟨rfl, rfl, by decide⟩

/-- C6 (amended): provided every candidate's classification completes
(no probe failure and no untracked-path `KeyError`), the `pull` command
pulls exactly the repositories whose full change set is the single-element
list `["pull-required"]` — repositories with extra or different kinds, or
with no report at all, are excluded. -/
theorem claim6_pull_selection (conf : Config)
    (repos : List (String × RepoState))
    (h : ∀ pr ∈ repos, checkrepo conf pr.1 pr.2 false ≠ CheckResult.exn ∧
      checkrepo conf pr.1 pr.2 false ≠ CheckResult.fail) :
    pull conf repos = .pulled ((repos.filter (fun pr =>
      checkrepo conf pr.1 pr.2 false ==
        .status pr.1 ["pull-required"])).map Prod.fst) := by
  unfold pull
  rw [check_paths_clean h]
  exact congrArg PullResult.pulled (filterMap_filter_pull repos)

/-- The spec's example batch: A needs only a pull, B needs a pull but has
unstaged changes, C is clean. -/
def reposABC : List (String × RepoState) :=
  [("a", statePull), ("b", statePullUnstaged), ("c", stateClean)]

/-- C6, witness: on the example batch exactly repo `a` is pulled. -/
theorem claim6_witness : pull exConfig reposABC = PullResult.pulled ["a"] := by
  rw [claim6_pull_selection exConfig reposABC (by decide)]
  rfl

/-- C7, counterexample: a path set containing an untracked repository with
a valid origin URL makes the quiet batch crash with the `KeyError` instead
of returning an exit status at all. -/
theorem claim7_counterexample :
    check_paths_with_exit_code emptyConfig [("q", stateClean)] false =
      ExitResult.exn ∧
    ExitResult.exn ≠ ExitResult.code 0 ∧
    ExitResult.exn ≠ ExitResult.code 1 :=
  ⟨rfl, by decide, by decide⟩

/-- C7 (amended): provided no repository's classification raises the
untracked-path `KeyError`, the quiet batch exits 1 iff at least one
repository would produce a (necessarily non-empty) report under collect
mode with `include_up_to_date = false`; a `-1` (ProbeFailed) never sets
the flag, and otherwise the exit status is 0 — and those are the only two
outcomes, whatever `include_uptodate` flag the caller passed. -/
theorem claim7_quiet_exit (conf : Config)
    (repos : List (String × RepoState)) (b : Bool)
    (h : ∀ pr ∈ repos, checkrepo conf pr.1 pr.2 false ≠ CheckResult.exn) :
    (check_paths_with_exit_code conf repos b = .code 1 ↔
      ∃ pr ∈ repos, ∃ p cs,
        checkrepo conf pr.1 pr.2 false = .status p cs ∧ cs ≠ [])
    ∧ (check_paths_with_exit_code conf repos b = .code 0 ∨
        check_paths_with_exit_code conf repos b = .code 1) := by
  have hexn : (repos.map (fun pr => checkrepo_bool conf pr.1 pr.2 b)).any
      BoolResult.isExn = false := by
    rw [List.any_eq_false]
    intro r hr
    rw [List.mem_map] at hr
    obtain ⟨pr, hpr, rfl⟩ := hr
    intro hex
    have hx : checkrepo_bool conf pr.1 pr.2 b = .exn := by
      cases hcb : checkrepo_bool conf pr.1 pr.2 b <;>
        rw [hcb] at hex <;> first | rfl | simp [BoolResult.isExn] at hex
    exact h pr hpr (checkrepo_bool_eq_exn.mp hx)
  have hkey : check_paths_with_exit_code conf repos b =
      .code (if (repos.map (fun pr => checkrepo_bool conf pr.1 pr.2 b)).any
        (fun r => r == .val true) = true then 1 else 0) := by
    simp only [check_paths_with_exit_code]
    rw [hexn]
    rw [if_neg (by decide)]
  have hval : ((repos.map (fun pr => checkrepo_bool conf pr.1 pr.2 b)).any
      (fun r => r == .val true) = true) ↔
      (∃ pr ∈ repos, ∃ p cs,
        checkrepo conf pr.1 pr.2 false = .status p cs ∧ cs ≠ []) := by
    rw [List.any_eq_true]
    constructor
    · rintro ⟨r, hr, hrt⟩
      rw [List.mem_map] at hr
      obtain ⟨pr, hpr, rfl⟩ := hr
      rw [beq_iff_eq] at hrt
      obtain ⟨p, cs, hst⟩ := checkrepo_bool_eq_true.mp hrt
      exact ⟨pr, hpr, p, cs, hst, checkrepo_changes_ne_nil hst⟩
    · rintro ⟨pr, hpr, p, cs, hst, hne⟩
      refine ⟨checkrepo_bool conf pr.1 pr.2 b,
        List.mem_map.mpr ⟨pr, hpr, rfl⟩, ?_⟩
      rw [beq_iff_eq]
      exact checkrepo_bool_eq_true.mpr ⟨p, cs, hst⟩
  constructor
  · rw [hkey]
    by_cases hx : (repos.map (fun pr => checkrepo_bool conf pr.1 pr.2 b)).any
        (fun r => r == .val true) = true
    · rw [if_pos hx]
      exact iff_of_true rfl (hval.mp hx)
    · rw [if_neg hx]
      exact iff_of_false (by decide) (fun hex => hx (hval.mpr hex))
  · rw [hkey]
    by_cases hx : (repos.map (fun pr => checkrepo_bool conf pr.1 pr.2 b)).any
        (fun r => r == .val true) = true
    · rw [if_pos hx]
      exact Or.inr rfl
    · rw [if_neg hx]
      exact Or.inl rfl

/-- C7, witness for the amended theorem: a batch with one behind-upstream
repo and one clean repo exits 1, matching the existence of a report. -/
theorem claim7_witness :
    (check_paths_with_exit_code exConfig [("a", statePull), ("p", stateClean)]
        false = ExitResult.code 1 ↔
      ∃ pr ∈ [("a", statePull), ("p", stateClean)], ∃ p cs,
        checkrepo exConfig pr.1 pr.2 false = CheckResult.status p cs ∧
          cs ≠ []) ∧
    (check_paths_with_exit_code exConfig [("a", statePull), ("p", stateClean)]
        false = ExitResult.code 0 ∨
      check_paths_with_exit_code exConfig [("a", statePull), ("p", stateClean)]
        false = ExitResult.code 1) :=
  claim7_quiet_exit exConfig [("a", statePull), ("p", stateClean)] false
    (by decide)

end Gitstat
